import Mathlib

/-!
Verification of the Transcript Segmentation Engine of the youtube-mcp-enhanced
repository (src/services/transcript.ts): the time normalizer
`parseTimeToSeconds`, the filter pipeline `filterTranscriptSegments`, and the
metadata computation of `getTranscript` (modelled as `summarize`).

JavaScript numbers are modelled as extended rationals with a NaN element
(`JSNum`), so that IEEE special values produced by the code (NaN from
`Number` coercion of non-numeric strings, -Infinity from `Math.max()` over an
empty spread) are represented faithfully.  Segment indices and the segment cap
are modelled as naturals, matching the zero-based positional indices of the
data model; `Array.prototype.slice` on such arguments is `jsSlice`.
-/

/-- JSNum models a JavaScript number: an exact rational, one of the two
infinities, or NaN.  (Float rounding is abstracted away; all arithmetic the
engine performs is exact on the inputs considered.) -/
inductive JSNum where
  | nan : JSNum
  | negInf : JSNum
  | posInf : JSNum
  | num : ℚ → JSNum
deriving DecidableEq, Repr

/-- Addition of JavaScript numbers: NaN absorbs, opposite infinities give NaN. -/
def jsAdd : JSNum → JSNum → JSNum
  | .nan, _ => .nan
  | _, .nan => .nan
  | .posInf, .negInf => .nan
  | .negInf, .posInf => .nan
  | .posInf, _ => .posInf
  | _, .posInf => .posInf
  | .negInf, _ => .negInf
  | _, .negInf => .negInf
  | .num x, .num y => .num (x + y)

/-- Negation of JavaScript numbers. -/
def jsNeg : JSNum → JSNum
  | .nan => .nan
  | .negInf => .posInf
  | .posInf => .negInf
  | .num x => .num (-x)

/-- Subtraction of JavaScript numbers: `a - b = a + (-b)` exactly as in IEEE. -/
def jsSub (a b : JSNum) : JSNum := jsAdd a (jsNeg b)

/-- Multiplication of JavaScript numbers: NaN absorbs, infinity times zero is NaN. -/
def jsMul : JSNum → JSNum → JSNum
  | .nan, _ => .nan
  | _, .nan => .nan
  | .num x, .num y => .num (x * y)
  | .posInf, .posInf => .posInf
  | .posInf, .negInf => .negInf
  | .negInf, .posInf => .negInf
  | .negInf, .negInf => .posInf
  | .posInf, .num y => if 0 < y then .posInf else if y < 0 then .negInf else .nan
  | .negInf, .num y => if 0 < y then .negInf else if y < 0 then .posInf else .nan
  | .num x, .posInf => if 0 < x then .posInf else if x < 0 then .negInf else .nan
  | .num x, .negInf => if 0 < x then .negInf else if x < 0 then .posInf else .nan

/-- The JavaScript comparison `a <= b`: false whenever either side is NaN. -/
def jsLe : JSNum → JSNum → Bool
  | .nan, _ => false
  | _, .nan => false
  | .negInf, _ => true
  | _, .negInf => false
  | _, .posInf => true
  | .posInf, _ => false
  | .num x, .num y => decide (x ≤ y)

/-- The JavaScript comparison `a >= b`: false whenever either side is NaN. -/
def jsGe (a b : JSNum) : Bool := jsLe b a

/-- Two-argument step of `Math.max`: NaN absorbs, otherwise the larger value. -/
def jsMax2 : JSNum → JSNum → JSNum
  | .nan, _ => .nan
  | _, .nan => .nan
  | .posInf, _ => .posInf
  | _, .posInf => .posInf
  | .negInf, b => b
  | a, .negInf => a
  | .num x, .num y => .num (max x y)

/-- Two-argument step of `Math.min`: NaN absorbs, otherwise the smaller value. -/
def jsMin2 : JSNum → JSNum → JSNum
  | .nan, _ => .nan
  | _, .nan => .nan
  | .negInf, _ => .negInf
  | _, .negInf => .negInf
  | .posInf, b => b
  | a, .posInf => a
  | .num x, .num y => .num (min x y)

/-- Denotes `Math.max(...l)`: folds from `-Infinity`, so the empty list gives
`-Infinity` and any NaN gives NaN. -/
def jsMaxList (l : List JSNum) : JSNum := l.foldl jsMax2 .negInf

/-- Denotes `Math.min(...l)`: folds from `+Infinity`. -/
def jsMinList (l : List JSNum) : JSNum := l.foldl jsMin2 .posInf

/-- Whitespace characters trimmed by JavaScript `Number` coercion of a string. -/
def isWS (c : Char) : Bool := c = ' ' || c = '\t' || c = '\n' || c = '\r'

/-- Value of a list of decimal digit characters, as a natural number. -/
def decDigitsNat (l : List Char) : ℕ :=
  l.foldl (fun acc c => acc * 10 + (c.toNat - 48)) 0

/-- Value of a list of decimal digit characters. -/
def decDigits (l : List Char) : ℚ := (decDigitsNat l : ℚ)

/-- Parses an unsigned decimal numeral `digits` or `digits.digits`
(either side of the dot may be empty, but not both); `none` on any other shape. -/
def parseUnsigned (l : List Char) : Option ℚ :=
  let intPart := l.takeWhile Char.isDigit
  let rest := l.dropWhile Char.isDigit
  match rest with
  | [] => if intPart.isEmpty then none else some (decDigits intPart)
  | '.' :: fracPart =>
    if fracPart.all Char.isDigit && (!intPart.isEmpty || !fracPart.isEmpty) then
      some (decDigits intPart + decDigits fracPart / (10 ^ fracPart.length))
    else none
  | _ => none

/-- Drops leading and trailing whitespace, as `Number` does before parsing. -/
def trimChars (l : List Char) : List Char :=
  ((l.dropWhile isWS).reverse.dropWhile isWS).reverse

/-- Models the JavaScript `Number(s)` coercion of a string, restricted to plain
decimal numerals (the shapes clock-time components take): the trimmed empty
string is 0, an optionally signed decimal numeral is its value, and anything
else is NaN. -/
def numOfChars (l : List Char) : JSNum :=
  match trimChars l with
  | [] => .num 0
  | '-' :: rest =>
    match parseUnsigned rest with
    | some q => .num (-q)
    | none => .nan
  | '+' :: rest =>
    match parseUnsigned rest with
    | some q => .num q
    | none => .nan
  | l' =>
    match parseUnsigned l' with
    | some q => .num q
    | none => .nan

/-- Models JavaScript `s.split(':')`: the empty string yields one empty part,
and each colon starts a new part. -/
def splitColon : List Char → List (List Char)
  | [] => [[]]
  | c :: rest =>
    let r := splitColon rest
    if c = ':' then [] :: r
    else
      match r with
      | h :: t => (c :: h) :: t
      | [] => [[c]]

/-- A `startTime`/`endTime` value: TypeScript `string | number`. -/
inductive TimeExpr where
  | str : String → TimeExpr
  | num : JSNum → TimeExpr
deriving DecidableEq, Repr

/-- Embeds `TranscriptService.parseTimeToSeconds`: a number passes through
unchanged; a string is split on `:` and read as MM:SS (2 parts) or HH:MM:SS
(3 parts), each part coerced by `Number`; any other part count gives 0. -/
def parseTimeToSeconds : TimeExpr → JSNum
  | .num n => n
  | .str s =>
    let parts := (splitColon s.toList).map numOfChars
    match parts with
    | [a, b] => jsAdd (jsMul a (JSNum.num 60)) b
    | [a, b, c] => jsAdd (jsAdd (jsMul a (JSNum.num 3600)) (jsMul b (JSNum.num 60))) c
    | _ => JSNum.num 0

/-- One caption segment as produced by `getTranscript`'s normalization:
text, start offset in seconds, and duration in seconds. -/
structure Segment where
  text : String
  start : JSNum
  duration : JSNum
deriving DecidableEq, Repr

/-- The filter-relevant fields of `TranscriptParams`.  All are optional;
`undefined` is `none`.  Times are `string | number`; minute counts are
numbers; indices and the cap are the zero-based counts of the data model. -/
structure TranscriptParams where
  startTime : Option TimeExpr := none
  endTime : Option TimeExpr := none
  lastMinutes : Option JSNum := none
  firstMinutes : Option JSNum := none
  maxSegments : Option ℕ := none
  startIndex : Option ℕ := none
  endIndex : Option ℕ := none
deriving DecidableEq, Repr

/-- The empty criteria object: no field supplied. -/
def noCriteria : TranscriptParams := {}

/-- Models `Array.prototype.slice(a, b)` for natural arguments: the elements
at positions `a` (inclusive) to `b` (exclusive), clamped to the list. -/
def jsSlice (l : List Segment) (a b : ℕ) : List Segment := (l.take b).drop a

/-- Embeds `TranscriptService.filterTranscriptSegments` statement by
statement: total duration up front; absolute time window; `lastMinutes`;
`firstMinutes`; index slice; `maxSegments` cap. -/
def filterTranscriptSegments (transcript : List Segment) (params : TranscriptParams) :
    List Segment :=
  let filtered0 := transcript
  let totalDuration := jsMaxList (transcript.map fun s => jsAdd s.start s.duration)
  let filtered1 :=
    if params.startTime.isSome || params.endTime.isSome then
      let startSeconds :=
        match params.startTime with
        | some t => parseTimeToSeconds t
        | none => JSNum.num 0
      let endSeconds :=
        match params.endTime with
        | some t => parseTimeToSeconds t
        | none => totalDuration
      filtered0.filter fun segment =>
        jsGe segment.start startSeconds && jsLe segment.start endSeconds
    else filtered0
  let filtered2 :=
    match params.lastMinutes with
    | some m =>
      let startSeconds := jsSub totalDuration (jsMul m (JSNum.num 60))
      filtered1.filter fun segment => jsGe segment.start startSeconds
    | none => filtered1
  let filtered3 :=
    match params.firstMinutes with
    | some m =>
      let endSeconds := jsMul m (JSNum.num 60)
      filtered2.filter fun segment => jsLe segment.start endSeconds
    | none => filtered2
  let filtered4 :=
    if params.startIndex.isSome || params.endIndex.isSome then
      let startIdx := params.startIndex.getD 0
      let endIdx :=
        match params.endIndex with
        | some e => e + 1
        | none => filtered3.length
      jsSlice filtered3 startIdx endIdx
    else filtered3
  match params.maxSegments with
  | some k => if filtered4.length > k then filtered4.take k else filtered4
  | none => filtered4

/-- Total duration of a caption sequence: `Math.max` over `start + duration`. -/
def totalDurationOf (transcript : List Segment) : JSNum :=
  jsMaxList (transcript.map fun s => jsAdd s.start s.duration)

/-- The normalized lower bound of the absolute time window: the supplied
`startTime` normalized, or 0 when missing. -/
def normStart (params : TranscriptParams) : JSNum :=
  match params.startTime with
  | some t => parseTimeToSeconds t
  | none => JSNum.num 0

/-- The normalized upper bound of the absolute time window: the supplied
`endTime` normalized, or the total duration when missing. -/
def normEnd (params : TranscriptParams) (td : JSNum) : JSNum :=
  match params.endTime with
  | some t => parseTimeToSeconds t
  | none => td

/-- Stage 1 of the pipeline: the absolute time window. -/
def stageTimeWindow (td : JSNum) (params : TranscriptParams) (l : List Segment) :
    List Segment :=
  if params.startTime.isSome || params.endTime.isSome then
    l.filter fun segment =>
      jsGe segment.start (normStart params) && jsLe segment.start (normEnd params td)
  else l

/-- Stage 2 of the pipeline: the `lastMinutes` window, bounded from below by
`totalDuration - lastMinutes * 60`. -/
def stageLastMinutes (td : JSNum) (params : TranscriptParams) (l : List Segment) :
    List Segment :=
  match params.lastMinutes with
  | some m => l.filter fun segment => jsGe segment.start (jsSub td (jsMul m (JSNum.num 60)))
  | none => l

/-- Stage 3 of the pipeline: the `firstMinutes` window, bounded from above by
`firstMinutes * 60`. -/
def stageFirstMinutes (params : TranscriptParams) (l : List Segment) : List Segment :=
  match params.firstMinutes with
  | some m => l.filter fun segment => jsLe segment.start (jsMul m (JSNum.num 60))
  | none => l

/-- Stage 4 of the pipeline: the positional index slice over the running
result. -/
def stageIndexSlice (params : TranscriptParams) (l : List Segment) : List Segment :=
  if params.startIndex.isSome || params.endIndex.isSome then
    jsSlice l (params.startIndex.getD 0)
      (match params.endIndex with
       | some e => e + 1
       | none => l.length)
  else l

/-- Stage 5 of the pipeline: the `maxSegments` cap. -/
def stageMaxSegments (params : TranscriptParams) (l : List Segment) : List Segment :=
  match params.maxSegments with
  | some k => if l.length > k then l.take k else l
  | none => l

/-- The metadata block computed at the end of `getTranscript`: kept count,
original count, total duration of the full sequence, wall-clock span of the
filtered sequence, and the echoed criteria. -/
structure Summary where
  segmentCount : ℕ
  totalSegments : ℕ
  totalDuration : JSNum
  filteredDuration : JSNum
  appliedFilters : TranscriptParams
deriving DecidableEq, Repr

/-- Embeds the metadata computation of `getTranscript`:
`totalDuration = Math.max(...full.map(s => s.start + s.duration))` and
`filteredDuration` the span max-end minus min-start of the filtered list when
non-empty, else 0. -/
def summarize (fullTranscript filteredTranscript : List Segment)
    (params : TranscriptParams) : Summary :=
  { segmentCount := filteredTranscript.length
    totalSegments := fullTranscript.length
    totalDuration := jsMaxList (fullTranscript.map fun s => jsAdd s.start s.duration)
    filteredDuration :=
      if filteredTranscript.length > 0 then
        jsSub (jsMaxList (filteredTranscript.map fun s => jsAdd s.start s.duration))
          (jsMinList (filteredTranscript.map fun s => s.start))
      else JSNum.num 0
    appliedFilters := params }

/-- Convenience constructor for rational-valued segments. -/
def seg (t : String) (s d : ℚ) : Segment := ⟨t, .num s, .num d⟩

/-- Ten segments evenly spaced at 60 seconds, each of duration 60 (total 600s). -/
def tenSegs : List Segment :=
  [seg "s0" 0 60, seg "s1" 60 60, seg "s2" 120 60, seg "s3" 180 60, seg "s4" 240 60,
   seg "s5" 300 60, seg "s6" 360 60, seg "s7" 420 60, seg "s8" 480 60, seg "s9" 540 60]

theorem filter_eq_stages (t : List Segment) (p : TranscriptParams) :
    filterTranscriptSegments t p =
      stageMaxSegments p (stageIndexSlice p (stageFirstMinutes p
        (stageLastMinutes (totalDurationOf t) p (stageTimeWindow (totalDurationOf t) p t)))) :=
  rfl

theorem stageTimeWindow_nil (td : JSNum) (p : TranscriptParams) :
    stageTimeWindow td p [] = [] := by
  simp [stageTimeWindow]

theorem stageLastMinutes_nil (td : JSNum) (p : TranscriptParams) :
    stageLastMinutes td p [] = [] := by
  unfold stageLastMinutes
  cases p.lastMinutes <;> simp

theorem stageFirstMinutes_nil (p : TranscriptParams) : stageFirstMinutes p [] = [] := by
  unfold stageFirstMinutes
  cases p.firstMinutes <;> simp

theorem stageIndexSlice_nil (p : TranscriptParams) : stageIndexSlice p [] = [] := by
  simp [stageIndexSlice, jsSlice]

theorem stageMaxSegments_nil (p : TranscriptParams) : stageMaxSegments p [] = [] := by
  unfold stageMaxSegments
  cases p.maxSegments <;> simp

theorem stageTimeWindow_length_le (td : JSNum) (p : TranscriptParams) (l : List Segment) :
    (stageTimeWindow td p l).length ≤ l.length := by
  unfold stageTimeWindow
  split
  · exact List.length_filter_le _ _
  · exact le_rfl

theorem stageLastMinutes_length_le (td : JSNum) (p : TranscriptParams) (l : List Segment) :
    (stageLastMinutes td p l).length ≤ l.length := by
  unfold stageLastMinutes
  cases p.lastMinutes
  · exact le_rfl
  · exact List.length_filter_le _ _

theorem stageFirstMinutes_length_le (p : TranscriptParams) (l : List Segment) :
    (stageFirstMinutes p l).length ≤ l.length := by
  unfold stageFirstMinutes
  cases p.firstMinutes
  · exact le_rfl
  · exact List.length_filter_le _ _

theorem stageMaxSegments_eq_take (p : TranscriptParams) (l : List Segment) (k : ℕ)
    (h : p.maxSegments = some k) : stageMaxSegments p l = l.take k := by
  unfold stageMaxSegments
  rw [h]
  show (if l.length > k then l.take k else l) = l.take k
  by_cases hl : l.length > k
  · rw [if_pos hl]
  · rw [if_neg hl]
    exact (List.take_of_length_le (Nat.le_of_not_lt hl)).symm

theorem stageMaxSegments_none (p : TranscriptParams) (l : List Segment)
    (h : p.maxSegments = none) : stageMaxSegments p l = l := by
  unfold stageMaxSegments
  rw [h]

theorem foldl_jsMax2_num (l : List ℚ) (q : ℚ) :
    List.foldl jsMax2 (JSNum.num q) (l.map JSNum.num) = JSNum.num (l.foldl max q) := by
  induction l generalizing q with
  | nil => rfl
  | cons x xs ih => simp [jsMax2, ih]

theorem foldl_jsMin2_num (l : List ℚ) (q : ℚ) :
    List.foldl jsMin2 (JSNum.num q) (l.map JSNum.num) = JSNum.num (l.foldl min q) := by
  induction l generalizing q with
  | nil => rfl
  | cons x xs ih => simp [jsMin2, ih]

theorem jsMaxList_map_num (x : ℚ) (l : List ℚ) :
    jsMaxList ((x :: l).map JSNum.num) = JSNum.num (l.foldl max x) := by
  simp only [jsMaxList, List.map_cons, List.foldl_cons]
  rw [show jsMax2 JSNum.negInf (JSNum.num x) = JSNum.num x from rfl]
  exact foldl_jsMax2_num l x

theorem jsMinList_map_num (x : ℚ) (l : List ℚ) :
    jsMinList ((x :: l).map JSNum.num) = JSNum.num (l.foldl min x) := by
  simp only [jsMinList, List.map_cons, List.foldl_cons]
  rw [show jsMin2 JSNum.posInf (JSNum.num x) = JSNum.num x from rfl]
  exact foldl_jsMin2_num l x

theorem foldl_max_mem (l : List ℚ) (a : ℚ) : l.foldl max a ∈ a :: l := by
  induction l generalizing a with
  | nil => simp
  | cons x xs ih =>
    simp only [List.foldl_cons]
    rcases List.mem_cons.1 (ih (max a x)) with h | h
    · rcases max_choice a x with hm | hm <;> rw [h, hm] <;> simp
    · simp [h]

theorem le_foldl_max (l : List ℚ) (a : ℚ) : a ≤ l.foldl max a := by
  induction l generalizing a with
  | nil => simp
  | cons x xs ih =>
    simp only [List.foldl_cons]
    exact le_trans (le_max_left a x) (ih (max a x))

theorem mem_le_foldl_max (l : List ℚ) (a : ℚ) : ∀ x ∈ l, x ≤ l.foldl max a := by
  induction l generalizing a with
  | nil => simp
  | cons y ys ih =>
    intro x hx
    rcases List.mem_cons.1 hx with h | h
    · subst h
      simp only [List.foldl_cons]
      exact le_trans (le_max_right a x) (le_foldl_max ys (max a x))
    · simp only [List.foldl_cons]
      exact ih (max a y) x h

theorem foldl_min_mem (l : List ℚ) (a : ℚ) : l.foldl min a ∈ a :: l := by
  induction l generalizing a with
  | nil => simp
  | cons x xs ih =>
    simp only [List.foldl_cons]
    rcases List.mem_cons.1 (ih (min a x)) with h | h
    · rcases min_choice a x with hm | hm <;> rw [h, hm] <;> simp
    · simp [h]

theorem foldl_min_le (l : List ℚ) (a : ℚ) : l.foldl min a ≤ a := by
  induction l generalizing a with
  | nil => simp
  | cons x xs ih =>
    simp only [List.foldl_cons]
    exact le_trans (ih (min a x)) (min_le_left a x)

theorem foldl_min_le_mem (l : List ℚ) (a : ℚ) : ∀ x ∈ l, l.foldl min a ≤ x := by
  induction l generalizing a with
  | nil => simp
  | cons y ys ih =>
    intro x hx
    rcases List.mem_cons.1 hx with h | h
    · subst h
      simp only [List.foldl_cons]
      exact le_trans (foldl_min_le ys (min a x)) (min_le_right a x)
    · simp only [List.foldl_cons]
      exact ih (min a y) x h

/-- C1: for every caption sequence and criteria, the filter pipeline's output
equals the five stages applied in the fixed order (absolute time window, then
lastMinutes, then firstMinutes, then positional index slice, then maxSegments
cap), each later stage operating on the already-narrowed output of the
previous stage; in particular, combining a time window with an index window
yields the Nth element of the time-narrowed set (here the segment at 20s),
not the Nth element of the original list (the segment at 0s). -/
theorem spec_C1 :
    (∀ (t : List Segment) (p : TranscriptParams),
      filterTranscriptSegments t p =
        stageMaxSegments p (stageIndexSlice p (stageFirstMinutes p
          (stageLastMinutes (totalDurationOf t) p (stageTimeWindow (totalDurationOf t) p t))))) ∧
    filterTranscriptSegments [seg "a" 0 5, seg "b" 10 5, seg "c" 20 5, seg "d" 30 5]
        { startTime := some (.num (.num 20)), startIndex := some 0, endIndex := some 0 } =
      [seg "c" 20 5] ∧
    [seg "c" 20 5] ≠ [seg "a" 0 5] := by
  refine ⟨filter_eq_stages, ?_, ?_⟩
  · norm_num [filterTranscriptSegments, seg, jsMaxList, jsMax2, jsAdd, jsMul, jsSub, jsNeg,
      jsGe, jsLe, List.filter, max_def, jsSlice, parseTimeToSeconds]
  · simp [seg]

/-- C2 (amended): filtering an empty caption sequence returns an empty
sequence for every criteria, and the summarizer's filteredDuration for an
empty filtered sequence is 0 (no exception, no NaN); however the summarizer's
totalDuration over an empty original sequence is -Infinity (JavaScript
`Math.max()` with no arguments), not 0. -/
theorem spec_C2 :
    (∀ p : TranscriptParams, filterTranscriptSegments [] p = []) ∧
    (∀ (full : List Segment) (p : TranscriptParams),
      (summarize full [] p).filteredDuration = JSNum.num 0) ∧
    (∀ p : TranscriptParams, (summarize [] [] p).totalDuration = JSNum.negInf) := by
  refine ⟨?_, fun full p => rfl, fun p => rfl⟩
  intro p
  rw [filter_eq_stages, stageTimeWindow_nil, stageLastMinutes_nil, stageFirstMinutes_nil,
    stageIndexSlice_nil, stageMaxSegments_nil]

/-- C2 counterexample: the computed total duration of the summarizer on an
empty original sequence is -Infinity, not 0 as the claim states. -/
theorem spec_C2_cex :
    (summarize [] [] noCriteria).totalDuration = JSNum.negInf ∧
    JSNum.negInf ≠ JSNum.num 0 :=
  ⟨rfl, by simp⟩

/-- C7: filtering with only maxSegments = k returns the prefix of the input
of length min(k, length), preserving order; and for arbitrary other criteria
the cap is applied last, unconditionally truncating the result of all prior
stages to its first k elements. -/
theorem spec_C7 :
    (∀ (all : List Segment) (k : ℕ),
      filterTranscriptSegments all { maxSegments := some k } = all.take k ∧
      (all.take k).length = min k all.length) ∧
    (∀ (all : List Segment) (p : TranscriptParams) (k : ℕ),
      filterTranscriptSegments all { p with maxSegments := some k } =
        (filterTranscriptSegments all { p with maxSegments := none }).take k) := by
  constructor
  · intro all k
    exact ⟨stageMaxSegments_eq_take { maxSegments := some k } all k rfl, List.length_take k all⟩
  · intro all p k
    rw [filter_eq_stages, filter_eq_stages, stageMaxSegments_eq_take _ _ k rfl,
      stageMaxSegments_none _ _ rfl]
    rfl

/-- C9: filtering a non-empty caption sequence with the empty criteria object
returns the sequence unchanged: the pipeline is the identity when no criteria
are given. -/
theorem spec_C9 (all : List Segment) (_h : all ≠ []) :
    filterTranscriptSegments all noCriteria = all := rfl

/-- C9 witness: the identity at a concrete non-empty sequence. -/
theorem spec_C9_witness : filterTranscriptSegments [seg "a" 0 1] noCriteria = [seg "a" 0 1] :=
  spec_C9 [seg "a" 0 1] (List.cons_ne_nil _ _)

/-- C10: on the colon-delimited string "1:xx", which has exactly 2
colon-separated parts but a non-numeric part, the time normalizer returns NaN
rather than 0: the lenient coercion to 0 applies only to strings with a wrong
number of parts. -/
theorem spec_C10 :
    parseTimeToSeconds (.str "1:xx") = JSNum.nan ∧
    (splitColon "1:xx".toList).length = 2 ∧
    JSNum.nan ≠ JSNum.num 0 := by
  refine ⟨?_, by decide, by simp⟩
  show jsAdd (jsMul (numOfChars ['1']) (.num 60)) (numOfChars ['x', 'x']) = .nan
  rw [show numOfChars ['1'] = .num 1 from rfl, show numOfChars ['x', 'x'] = .nan from rfl]
  simp [jsMul, jsAdd]

/-- C3: the filter pipeline is total and never errors; inverted numeric time
bounds (startTime greater than endTime), inverted index bounds (startIndex
greater than endIndex), and an out-of-range startIndex each produce an empty
result, whatever the other criteria and input are. -/
theorem spec_C3 :
    (∀ (t : List Segment) (p : TranscriptParams) (a b : ℚ),
      p.startTime = some (.num (.num a)) → p.endTime = some (.num (.num b)) → b < a →
      filterTranscriptSegments t p = []) ∧
    (∀ (t : List Segment) (p : TranscriptParams) (i j : ℕ),
      p.startIndex = some i → p.endIndex = some j → j < i →
      filterTranscriptSegments t p = []) ∧
    (∀ (t : List Segment) (p : TranscriptParams) (i : ℕ),
      p.startIndex = some i → p.endIndex = none → t.length ≤ i →
      filterTranscriptSegments t p = []) := by
  refine ⟨?_, ?_, ?_⟩
  · intro t p a b hst hen hba
    rw [filter_eq_stages]
    have hw : stageTimeWindow (totalDurationOf t) p t = [] := by
      unfold stageTimeWindow
      rw [if_pos (by simp [hst])]
      rw [List.filter_eq_nil_iff]
      intro s hs
      simp only [normStart, normEnd, hst, hen, parseTimeToSeconds]
      cases s.start with
      | nan => simp [jsGe, jsLe]
      | negInf => simp [jsGe, jsLe]
      | posInf => simp [jsGe, jsLe]
      | num x =>
        simp only [jsGe, jsLe, Bool.and_eq_true, decide_eq_true_eq, not_and]
        intro h1 h2
        linarith
    rw [hw, stageLastMinutes_nil, stageFirstMinutes_nil, stageIndexSlice_nil,
      stageMaxSegments_nil]
  · intro t p i j hsi hej hji
    rw [filter_eq_stages]
    have hslice : stageIndexSlice p (stageFirstMinutes p (stageLastMinutes (totalDurationOf t) p
        (stageTimeWindow (totalDurationOf t) p t))) = [] := by
      unfold stageIndexSlice
      rw [if_pos (by simp [hsi])]
      rw [hsi, hej]
      show jsSlice _ i (j + 1) = []
      unfold jsSlice
      exact List.drop_eq_nil_of_le (le_trans (List.length_take_le (j + 1) _) hji)
    rw [hslice, stageMaxSegments_nil]
  · intro t p i hsi hei hle
    rw [filter_eq_stages]
    have hlen : (stageFirstMinutes p (stageLastMinutes (totalDurationOf t) p
        (stageTimeWindow (totalDurationOf t) p t))).length ≤ t.length :=
      le_trans (stageFirstMinutes_length_le _ _)
        (le_trans (stageLastMinutes_length_le _ _ _) (stageTimeWindow_length_le _ _ _))
    have hslice : stageIndexSlice p (stageFirstMinutes p (stageLastMinutes (totalDurationOf t) p
        (stageTimeWindow (totalDurationOf t) p t))) = [] := by
      unfold stageIndexSlice
      rw [if_pos (by simp [hsi])]
      rw [hsi, hei]
      show jsSlice _ i (List.length _) = []
      unfold jsSlice
      rw [List.take_length]
      exact List.drop_eq_nil_of_le (le_trans hlen hle)
    rw [hslice, stageMaxSegments_nil]

/-- C3 witness: inverted numeric time bounds at a concrete input yield the
empty result. -/
theorem spec_C3_witness :
    filterTranscriptSegments [seg "a" 0 5]
      { startTime := some (.num (.num 1)), endTime := some (.num (.num 0)) } = [] :=
  spec_C3.1 [seg "a" 0 5] _ 1 0 rfl rfl zero_lt_one

/-- C4: the time normalizer is total and never throws; numbers pass through
unchanged; a string with exactly 2 colon-separated parts whose parts coerce
to the rationals m and sec yields m*60 + sec; 3 such parts yield
hh*3600 + mm*60 + ss; any other part count yields 0; and in particular
normalize("1:30") = 90, normalize("1:02:03") = 3723, normalize(45) = 45 and
normalize("bogus") = 0. -/
theorem spec_C4 :
    (∀ n : JSNum, parseTimeToSeconds (.num n) = n) ∧
    (∀ (s : String) (p q : List Char) (m sec : ℚ),
      splitColon s.toList = [p, q] → numOfChars p = .num m → numOfChars q = .num sec →
      parseTimeToSeconds (.str s) = .num (m * 60 + sec)) ∧
    (∀ (s : String) (p q r : List Char) (hh mm ss : ℚ),
      splitColon s.toList = [p, q, r] → numOfChars p = .num hh → numOfChars q = .num mm →
      numOfChars r = .num ss →
      parseTimeToSeconds (.str s) = .num (hh * 3600 + mm * 60 + ss)) ∧
    (∀ s : String, (splitColon s.toList).length ≠ 2 → (splitColon s.toList).length ≠ 3 →
      parseTimeToSeconds (.str s) = .num 0) ∧
    parseTimeToSeconds (.str "1:30") = .num 90 ∧
    parseTimeToSeconds (.str "1:02:03") = .num 3723 ∧
    parseTimeToSeconds (.num (.num 45)) = .num 45 ∧
    parseTimeToSeconds (.str "bogus") = .num 0 := by
  refine ⟨fun n => rfl, ?_, ?_, ?_, ?_, ?_, rfl, rfl⟩
  · intro s p q m sec hsplit hm hsec
    have he : parseTimeToSeconds (.str s) =
        jsAdd (jsMul (numOfChars p) (JSNum.num 60)) (numOfChars q) := by
      simp only [parseTimeToSeconds, hsplit, List.map_cons, List.map_nil]
    rw [he, hm, hsec]
    simp [jsMul, jsAdd]
  · intro s p q r hh mm ss hsplit hp hq hr
    have he : parseTimeToSeconds (.str s) =
        jsAdd (jsAdd (jsMul (numOfChars p) (JSNum.num 3600))
          (jsMul (numOfChars q) (JSNum.num 60))) (numOfChars r) := by
      simp only [parseTimeToSeconds, hsplit, List.map_cons, List.map_nil]
    rw [he, hp, hq, hr]
    simp [jsMul, jsAdd]
  · intro s h2 h3
    rcases hL : splitColon s.toList with _ | ⟨a, _ | ⟨b, _ | ⟨c, _ | ⟨d, tl⟩⟩⟩⟩
    · simp only [parseTimeToSeconds, hL, List.map_nil]
    · simp only [parseTimeToSeconds, hL, List.map_cons, List.map_nil]
    · rw [hL] at h2
      simp at h2
    · rw [hL] at h3
      simp at h3
    · simp only [parseTimeToSeconds, hL, List.map_cons]
  · show jsAdd (jsMul (numOfChars ['1']) (.num 60)) (numOfChars ['3', '0']) = .num 90
    rw [show numOfChars ['1'] = .num 1 from rfl, show numOfChars ['3', '0'] = .num 30 from rfl]
    simp [jsMul, jsAdd]
    norm_num
  · show jsAdd (jsAdd (jsMul (numOfChars ['1']) (.num 3600))
      (jsMul (numOfChars ['0', '2']) (.num 60))) (numOfChars ['0', '3']) = .num 3723
    rw [show numOfChars ['1'] = .num 1 from rfl, show numOfChars ['0', '2'] = .num 2 from rfl,
      show numOfChars ['0', '3'] = .num 3 from rfl]
    simp [jsMul, jsAdd]
    norm_num

/-- C4 witness: the 2-part clause applied to the concrete string "2:05". -/
theorem spec_C4_witness :
    parseTimeToSeconds (.str "2:05") = .num (2 * 60 + 5) :=
  spec_C4.2.1 "2:05" ['2'] ['0', '5'] 2 5 (by decide) rfl rfl

/-- C5: when startTime or endTime is supplied, the absolute-time-window stage
keeps a segment if and only if its start satisfies the JavaScript comparisons
against the normalized bounds, where a missing start bound defaults to 0 and
a missing end bound defaults to the total duration; for rational values this
is exactly the closed interval [start, end]; kept segments are a sublist of
the input, unmodified and never clipped. -/
theorem spec_C5 (td : JSNum) (p : TranscriptParams) (l : List Segment)
    (h : (p.startTime.isSome || p.endTime.isSome) = true) :
    (stageTimeWindow td p l).Sublist l ∧
    (∀ s : Segment, s ∈ stageTimeWindow td p l ↔
      s ∈ l ∧ (jsGe s.start (normStart p) && jsLe s.start (normEnd p td)) = true) ∧
    (p.startTime = none → normStart p = JSNum.num 0) ∧
    (p.endTime = none → normEnd p td = td) ∧
    (∀ a b x : ℚ,
      (jsGe (JSNum.num x) (JSNum.num a) && jsLe (JSNum.num x) (JSNum.num b)) = true ↔
        a ≤ x ∧ x ≤ b) := by
  unfold stageTimeWindow
  rw [if_pos h]
  refine ⟨List.filter_sublist l, fun s => List.mem_filter, ?_, ?_, ?_⟩
  · intro h0
    simp [normStart, h0]
  · intro h0
    simp [normEnd, h0]
  · intro a b x
    simp [jsGe, jsLe]

/-- Criteria used by the C5 witness: only a startTime of 10 seconds. -/
def pC5 : TranscriptParams := { startTime := some (.num (.num 10)) }

/-- C5 witness: the window-stage characterization at a concrete input. -/
theorem spec_C5_witness :
    (stageTimeWindow (JSNum.num 100) pC5 [seg "a" 50 1]).Sublist [seg "a" 50 1] ∧
    (∀ s : Segment, s ∈ stageTimeWindow (JSNum.num 100) pC5 [seg "a" 50 1] ↔
      s ∈ [seg "a" 50 1] ∧
        (jsGe s.start (normStart pC5) && jsLe s.start (normEnd pC5 (JSNum.num 100))) = true) ∧
    (pC5.startTime = none → normStart pC5 = JSNum.num 0) ∧
    (pC5.endTime = none → normEnd pC5 (JSNum.num 100) = JSNum.num 100) ∧
    (∀ a b x : ℚ,
      (jsGe (JSNum.num x) (JSNum.num a) && jsLe (JSNum.num x) (JSNum.num b)) = true ↔
        a ≤ x ∧ x ≤ b) :=
  spec_C5 (JSNum.num 100) pC5 [seg "a" 50 1] rfl

/-- C6: when lastMinutes is supplied, the pipeline filters the running result
(the output of the time-window stage) by startSeconds >= totalDuration minus
lastMinutes*60, where totalDuration is computed over the full original
sequence; a negative rational bound admits every segment with a non-negative
rational start; and on 10 segments evenly spaced at 60s (total duration
600s), lastMinutes = 3 keeps exactly the segments at 420, 480 and 540. -/
theorem spec_C6 :
    (∀ (t : List Segment) (p : TranscriptParams) (m : JSNum),
      p.lastMinutes = some m →
      filterTranscriptSegments t p =
        stageMaxSegments p (stageIndexSlice p (stageFirstMinutes p
          ((stageTimeWindow (totalDurationOf t) p t).filter fun s =>
            jsGe s.start (jsSub (totalDurationOf t) (jsMul m (JSNum.num 60))))))) ∧
    (∀ (l : List Segment) (c : ℚ), c < 0 →
      (∀ s ∈ l, ∃ x : ℚ, s.start = JSNum.num x ∧ 0 ≤ x) →
      l.filter (fun s => jsGe s.start (JSNum.num c)) = l) ∧
    filterTranscriptSegments tenSegs { lastMinutes := some (.num 3) } =
      [seg "s7" 420 60, seg "s8" 480 60, seg "s9" 540 60] := by
  refine ⟨?_, ?_, ?_⟩
  · intro t p m hm
    rw [filter_eq_stages]
    have hlast : stageLastMinutes (totalDurationOf t) p
        (stageTimeWindow (totalDurationOf t) p t) =
        (stageTimeWindow (totalDurationOf t) p t).filter fun s =>
          jsGe s.start (jsSub (totalDurationOf t) (jsMul m (JSNum.num 60))) := by
      unfold stageLastMinutes
      rw [hm]
    rw [hlast]
  · intro l c hc hall
    rw [List.filter_eq_self]
    intro s hs
    obtain ⟨x, hx, hx0⟩ := hall s hs
    simp only [jsGe, jsLe, hx, decide_eq_true_eq]
    linarith
  · norm_num [filterTranscriptSegments, tenSegs, seg, jsMaxList, jsMax2, jsAdd, jsMul, jsSub,
      jsNeg, jsGe, jsLe, List.filter, max_def]

/-- C6 witness: a negative bound admits a concrete segment list unchanged. -/
theorem spec_C6_witness :
    List.filter (fun s => jsGe s.start (JSNum.num (-1))) [seg "a" 0 5] = [seg "a" 0 5] :=
  spec_C6.2.1 [seg "a" 0 5] (-1) (by norm_num) (by
    intro s hs
    rw [List.mem_singleton] at hs
    subst hs
    exact ⟨0, rfl, le_refl 0⟩)

/-- C8: the summarizer's filteredDuration is the wall-clock span of the
filtered segments: max of (start + duration) minus min of start when the
filtered list is non-empty, and 0 when empty; for rational-valued segments
these are genuinely the maximum end offset and minimum start offset; the
span includes internal gaps and is not the sum of individual durations
(two 10-second segments at 0 and 100 span 110, not 20). -/
theorem spec_C8 :
    (∀ (full fil : List Segment) (p : TranscriptParams), fil ≠ [] →
      (summarize full fil p).filteredDuration =
        jsSub (jsMaxList (fil.map fun s => jsAdd s.start s.duration))
          (jsMinList (fil.map fun s => s.start))) ∧
    (∀ (full : List Segment) (p : TranscriptParams),
      (summarize full [] p).filteredDuration = JSNum.num 0) ∧
    (∀ (full : List Segment) (p : TranscriptParams) (l : List (String × ℚ × ℚ)), l ≠ [] →
      ∃ a b : ℚ,
        (summarize full (l.map fun e => seg e.1 e.2.1 e.2.2) p).filteredDuration =
          JSNum.num (b - a) ∧
        a ∈ l.map (fun e => e.2.1) ∧ (∀ x ∈ l.map (fun e => e.2.1), a ≤ x) ∧
        b ∈ l.map (fun e => e.2.1 + e.2.2) ∧ (∀ y ∈ l.map (fun e => e.2.1 + e.2.2), y ≤ b)) ∧
    ((summarize [] [seg "a" 0 10, seg "b" 100 10] noCriteria).filteredDuration = JSNum.num 110 ∧
      (110 : ℚ) ≠ 10 + 10) := by
  refine ⟨?_, fun full p => rfl, ?_, ?_, by norm_num⟩
  · intro full fil p hne
    simp only [summarize]
    rw [if_pos (List.length_pos.mpr hne)]
  · intro full p l hne
    obtain ⟨e, rest, rfl⟩ := List.exists_cons_of_ne_nil hne
    refine ⟨(rest.map fun e2 => e2.2.1).foldl min e.2.1,
      (rest.map fun e2 => e2.2.1 + e2.2.2).foldl max (e.2.1 + e.2.2), ?_, ?_, ?_, ?_, ?_⟩
    · simp only [summarize]
      rw [if_pos (by simp)]
      have hmax : ((e :: rest).map fun e2 => seg e2.1 e2.2.1 e2.2.2).map
          (fun s => jsAdd s.start s.duration) =
          ((e :: rest).map fun e2 => e2.2.1 + e2.2.2).map JSNum.num := by
        simp [List.map_map, Function.comp, seg, jsAdd]
      have hmin : ((e :: rest).map fun e2 => seg e2.1 e2.2.1 e2.2.2).map (fun s => s.start) =
          ((e :: rest).map fun e2 => e2.2.1).map JSNum.num := by
        simp [List.map_map, Function.comp, seg]
      rw [hmax, hmin,
        show ((e :: rest).map fun e2 => e2.2.1 + e2.2.2) =
          (e.2.1 + e.2.2) :: (rest.map fun e2 => e2.2.1 + e2.2.2) from rfl,
        show ((e :: rest).map fun e2 => e2.2.1) =
          e.2.1 :: (rest.map fun e2 => e2.2.1) from rfl,
        jsMaxList_map_num, jsMinList_map_num]
      simp [jsSub, jsAdd, jsNeg, sub_eq_add_neg]
    · simpa [List.map_cons] using foldl_min_mem (rest.map fun e2 => e2.2.1) e.2.1
    · intro x hx
      rw [List.map_cons] at hx
      rcases List.mem_cons.1 hx with h | h
      · rw [h]
        exact foldl_min_le _ _
      · exact foldl_min_le_mem _ _ x h
    · simpa [List.map_cons] using
        foldl_max_mem (rest.map fun e2 => e2.2.1 + e2.2.2) (e.2.1 + e.2.2)
    · intro y hy
      rw [List.map_cons] at hy
      rcases List.mem_cons.1 hy with h | h
      · rw [h]
        exact le_foldl_max _ _
      · exact mem_le_foldl_max _ _ y h
  · norm_num [summarize, seg, jsMaxList, jsMinList, jsMax2, jsMin2, jsAdd, jsSub, jsNeg,
      max_def, min_def]

/-- C8 witness: the span formula applied to a concrete non-empty filtered
list. -/
theorem spec_C8_witness :
    (summarize [] [seg "a" 0 10] noCriteria).filteredDuration =
      jsSub (jsMaxList ([seg "a" 0 10].map fun s => jsAdd s.start s.duration))
        (jsMinList ([seg "a" 0 10].map fun s => s.start)) :=
  spec_C8.1 [] [seg "a" 0 10] noCriteria (List.cons_ne_nil _ _)
